import Mathlib

/-!
Verification of the session/command core of `simplegram.py`, a terminal
Telegram client.  The Python source is shallowly embedded: the mutable
`ChatSession` object and the module-level state of `main()` become explicit
state records, each command handler of the dispatcher loop becomes a pure
function from state, input line and a record of backend responses to a new
state plus a trace of rendered output and backend calls.  Strings are Lean
`String`s; all string helpers used by the model are defined below by
structural recursion over `String.data` so that every definition evaluates
inside the kernel.
-/

namespace Simplegram

/-! ## String helpers

The Python code uses `str.strip`, `str.split`, `str.lower`, `str.startswith`,
`in` (substring), `str.isdigit`, `int(...)`, `str.replace` and `" ".join`.
Each is modelled here over `String.data`. -/

/-- `str.strip()`: drop whitespace from both ends of a character list. -/
def stripList (l : List Char) : List Char :=
  ((l.dropWhile Char.isWhitespace).reverse.dropWhile Char.isWhitespace).reverse

/-- `str.strip()` on strings. -/
def stripStr (x : String) : String := ⟨stripList x.data⟩

/-- Worker for `str.split()` (split on whitespace, no empty tokens),
with an accumulator holding the current word reversed. -/
def splitWsAux : List Char → List Char → List (List Char)
  | [], acc => if acc.isEmpty then [] else [acc.reverse]
  | c :: t, acc =>
    if c.isWhitespace then
      if acc.isEmpty then splitWsAux t [] else acc.reverse :: splitWsAux t []
    else splitWsAux t (c :: acc)

/-- `str.split()`: whitespace-separated tokens of a string. -/
def splitWs (x : String) : List String :=
  (splitWsAux x.data []).map fun l => ⟨l⟩

/-- `str.lower()` (ASCII case folding, which is all the commands need). -/
def toLowerStr (x : String) : String := ⟨x.data.map Char.toLower⟩

/-- `x.startswith(p)`. -/
def strStartsWith (p x : String) : Bool := p.data.isPrefixOf x.data

/-- `needle in hay` (Python substring test). -/
def strContainsList (hay needle : List Char) : Bool :=
  needle.isPrefixOf hay ||
    match hay with
    | [] => false
    | _ :: t => strContainsList t needle

/-- `needle in hay` on strings. -/
def strContains (hay needle : String) : Bool := strContainsList hay.data needle.data

/-- `str.isdigit()`: non-empty and all (ASCII) digits. -/
def isDigitStr (x : String) : Bool := !x.data.isEmpty && x.data.all Char.isDigit

/-- Digit-list to number, most significant first. -/
def digitsToNat (l : List Char) : Nat :=
  l.foldl (fun acc c => acc * 10 + (c.toNat - '0'.toNat)) 0

/-- `int(x)` for a string that passed `isdigit`. -/
def parseNat (x : String) : Nat := digitsToNat x.data

/-- `int(x)` with failure (`ValueError`) as `none`; accepts an optional
leading minus sign followed by digits, which covers the inputs the client
ever feeds it. -/
def parseInt (x : String) : Option Int :=
  match x.data with
  | '-' :: rest => if !rest.isEmpty && rest.all Char.isDigit then some (-(digitsToNat rest : Int)) else none
  | l => if !l.isEmpty && l.all Char.isDigit then some (digitsToNat l : Int) else none

/-- `x[-n:]`: the last `n` characters (the whole string when shorter). -/
def strLastN (n : Nat) (x : String) : String := ⟨(x.data.reverse.take n).reverse⟩

/-- `x.replace("@", "")`: drop every `@` character. -/
def removeAtSigns (x : String) : String := ⟨x.data.filter (· ≠ '@')⟩

/-- `" ".join(tokens)`. -/
def joinSp : List String → String
  | [] => ""
  | [x] => x
  | x :: xs => x ++ " " ++ joinSp xs

/-- A whitespace-free, non-empty string: the shape of every token produced
by `str.split()`. -/
def isTok (x : String) : Bool := !x.data.isEmpty && x.data.all fun c => !c.isWhitespace

/-! ## Data model

Telethon objects are embedded as records carrying exactly the attributes the
client reads.  `Option` encodes Python attributes that can be `None`/absent;
an empty string models a falsy string attribute. -/

/-- A settings value as stored in `settings.json` / the `user_settings`
dict: the `/settings` handler coerces the second argument to `int`, `bool`
or leaves it a string. -/
inductive SVal where
  | int (n : Int)
  | bool (b : Bool)
  | str (s : String)
deriving DecidableEq, Repr

/-- Telethon `UserStatus*` variants read by `get_user_status`; `offlineAt`
carries the pre-formatted `was_online` timestamp (or `none` when absent). -/
inductive UserStatus where
  | online
  | offlineAt (t : Option String)
  | recently
  | lastWeek
  | lastMonth
deriving DecidableEq, Repr

/-- A Telegram peer (user / chat / channel) with the attributes the client
reads.  `isUser` stands for `isinstance(entity, User)`. -/
structure Entity where
  id : Int
  first_name : Option String := none
  last_name : Option String := none
  title : Option String := none
  username : Option String := none
  phone : Option String := none
  isUser : Bool := false
  bot : Bool := false
  status : Option UserStatus := none
deriving DecidableEq, Repr

/-- The message attributes read by the renderer and the session logic.
`day` abstracts `message.date.astimezone().date()` as a day number and
`time` the formatted `%H:%M` string. -/
structure Message where
  id : Int
  day : Nat
  time : String := ""
  out : Bool := false
  sender : Option Entity := none
  voice : Bool := false
  video_note : Bool := false
  hasFile : Bool := false
  fileDuration : Option Nat := none
  fileName : Option String := none
  docAttrName : Option String := none
  text : String := ""
  action : Option String := none
  is_reply : Bool := false
deriving DecidableEq, Repr

/-- A `NewMessage` event: Telethon's `event.date/.out/.raw_text/.is_reply`
proxy the wrapped message, so the event carries the message itself plus the
chat id and resolved sender. -/
structure Event where
  chat_id : Int
  sender : Option Entity := none
  message : Message
deriving DecidableEq, Repr

/-- One element of `client.iter_dialogs()`. -/
structure Dialog where
  entity : Entity
  is_user : Bool := false
  is_group : Bool := false
  is_channel : Bool := false
  unread_count : Nat := 0
deriving DecidableEq, Repr

/-- The result of `format_message_content`, kept structured instead of the
rendered f-string so the content kind stays inspectable. -/
inductive Content where
  | voice (dur : Option Nat)
  | videoNote (dur : Option Nat)
  | file (name : String)
  | text (t : String)
  | action (a : String)
  | media
deriving DecidableEq, Repr

/-- The `ChatSession` class: per-open-conversation state. -/
structure ChatSession where
  entity : Entity
  name : String
  last_message_date : Option Nat
  reply_to_msg_id : Option Int
  reply_snippet : Option String
  message_index_map : List (Nat × Message)
  next_index : Nat
deriving DecidableEq, Repr

/-- The module-level mutable state of `main()`: the current chat, the
settings dict, the `/chats` cache, plus the on-disk contents of
`settings.json` (so that `save_settings` persistence is observable). -/
structure AppState where
  current_chat : Option ChatSession
  user_settings : List (String × SVal)
  chat_list_cache : List Entity
  savedSettings : Option (List (String × SVal))
deriving DecidableEq, Repr

/-- One rendered output line (or interactive prompt), as a structured event
rather than the styled HTML string. -/
inductive Out where
  | helpText
  | settingsView (settings : List (String × SVal))
  | settingsUsage
  | settingsHelp
  | settingsSet (key : String) (v : SVal)
  | settingsInvalidDefaultHistory
  | settingsUsageErr
  | closedChat (name : String)
  | notInChat
  | statusInfo (s : Option String)
  | statusErr
  | noActiveChat
  | replyCancelled
  | msgNotFound (idx : Nat)
  | findingLast
  | noMsgsToReply
  | deleteUsage
  | warnNotNumber (arg : String)
  | warnIdxNotFound (idx : Nat)
  | noValidSelected
  | warnOthersMessages
  | deleteWarning (indices : List Nat)
  | confirmPrompt
  | deleted (n : Nat)
  | deleteFailed (e : String)
  | deletionCancelled
  | contactsOutput (entities : List Entity)
  | chatsOutput (dialogs : List Dialog)
  | unreadOutput (dialogs : List Dialog)
  | noUnread
  | usageC
  | invalidChatIndex
  | todaySep (day : Nat)
  | switchedChat (name : String) (status : Option String)
  | namePrompt
  | searching (target : String)
  | couldNotFind (target : String)
  | usageHint
  | fetching (n : Int)
  | historyHeader (n : Nat)
  | historyEnd
  | historyError (e : String)
  | dateSep (day : Nat)
  | histLine (idx : Nat) (time : String) (sender : Option String)
      (reply : Bool) (content : Content) (sent : Bool)
  | liveLine (idx : Nat) (time : String) (sender : Option String)
      (reply : Bool) (content : Content) (sent : Bool)
  | sentLine (idx : Nat) (time : String) (reply : Bool) (text : String)
  | sendFailed (e : String)
  | noRecipientAt (text : String)
  | noRecipient
  | genericErr (e : String)
deriving DecidableEq, Repr

/-- A backend (Telethon client) invocation, recorded so theorems can state
"no backend call happens". -/
inductive BCall where
  | getMessages (peer : Int) (limit : Int)
  | sendMessage (peer : Int) (text : String) (replyTo : Option Int)
  | deleteMessages (peer : Int) (ids : List Int) (revoke : Bool)
  | getEntityStr (q : String)
  | getEntityId (id : Int)
  | iterDialogs
  | iterMessages (peer : Int) (limit : Nat)
deriving DecidableEq, Repr

/-- The backend's responses for one pass of the dispatcher loop: each field
is the value the corresponding awaited call would produce, with `Except`
errors standing for raised exceptions.  `promptAnswer` answers any nested
`prompt_async` (delete confirmation / recipient name prompt). -/
structure Env where
  dialogs : List Dialog
  getEntityStr : String → Option Entity
  getEntityById : Int → Option Entity
  fetchHistory : Except String (List Message)
  sendResult : Except String Message
  deleteOk : Except String Unit
  recentMessages : List Message
  promptAnswer : String
  today : Nat
  nowTime : String

/-- Result of dispatching one input line. -/
structure StepResult where
  state : AppState
  out : List Out
  calls : List BCall
  exited : Bool
deriving DecidableEq, Repr

/-! ## Renderer helpers (`get_display_name`, `get_user_status`,
`format_message_content`) -/

/-- `get_display_name(entity)`: first name + last name when a non-empty
`first_name` exists, else the title, else `"Unknown"`. -/
def get_display_name (e : Entity) : String :=
  match e.first_name with
  | some f =>
    if f ≠ "" then
      stripStr (f ++ " " ++ (match e.last_name with | some l => l | none => ""))
    else match e.title with | some t => t | none => "Unknown"
  | none => match e.title with | some t => t | none => "Unknown"

/-- `get_user_status(entity)`: `None` for non-users, else a readable string
for the `UserStatus` variant. -/
def get_user_status (e : Entity) : Option String :=
  if !e.isUser then none
  else
    match e.status with
    | none => some "Offline"
    | some .online => some "Online"
    | some (.offlineAt (some t)) => some ("Last seen: " ++ t)
    | some (.offlineAt none) => some "Offline"
    | some .recently => some "Last seen recently"
    | some .lastWeek => some "Last seen last week"
    | some .lastMonth => some "Last seen last month"

/-- `format_message_content(message)`: voice, video note, file, text,
action, or generic media — tried in that order. -/
def format_message_content (m : Message) : Content :=
  if m.voice then .voice m.fileDuration
  else if m.video_note then .videoNote m.fileDuration
  else if m.hasFile then
    .file (match m.fileName with
           | some n => n
           | none => match m.docAttrName with | some n => n | none => "unknown file")
  else if m.text ≠ "" then .text m.text
  else match m.action with | some a => .action a | none => .media

/-- The rendered string of a `Content`, used only to cut the 15-character
reply snippet (`text[-15:]`). -/
def contentString : Content → String
  | .voice d => "[Voice Message (" ++ (match d with | some n => toString n | none => "?") ++ "s)]"
  | .videoNote d => "[Video Note (" ++ (match d with | some n => toString n | none => "?") ++ "s)]"
  | .file n => "[File: " ++ n ++ "]"
  | .text t => t
  | .action a => "[" ++ a ++ "]"
  | .media => "[Media/Sticker]"

/-! ## ChatSession operations -/

/-- `ChatSession.__init__`. -/
def ChatSession.create (e : Entity) : ChatSession where
  entity := e
  name := get_display_name e
  last_message_date := none
  reply_to_msg_id := none
  reply_snippet := none
  message_index_map := []
  next_index := 1

/-- The index-assignment step shared (textually duplicated in the source)
by history replay, live arrival and local send:
`idx = next_index; message_index_map[idx] = m; next_index += 1`. -/
def assign_index (c : ChatSession) (m : Message) : ChatSession × Nat :=
  ({ c with
      message_index_map := c.message_index_map ++ [(c.next_index, m)],
      next_index := c.next_index + 1 },
   c.next_index)

/-- `message_index_map[idx]` lookup (`idx in map` plus access). -/
def lookupIdx (map : List (Nat × Message)) (idx : Nat) : Option Message :=
  (map.find? fun p => p.1 = idx).map Prod.snd

/-- `print_date_separator`: emit a separator and update
`last_message_date` when the day differs from the last rendered one. -/
def print_date_separator (c : ChatSession) (day : Nat) : ChatSession × List Out :=
  if c.last_message_date ≠ some day then
    ({ c with last_message_date := some day }, [.dateSep day])
  else (c, [])

/-- Sender label of a rendered message: `none` renders as `[You]` for
outgoing messages; otherwise the resolved sender's display name, falling
back to the chat's cached name. -/
def senderLabel (chatName : String) (sender : Option Entity) (outgoing : Bool) :
    Option String :=
  if outgoing then none
  else some (match sender with | some s => get_display_name s | none => chatName)

/-- The body of the history loop in `fetch_and_render_history`: walk the
chronological messages, emitting a date separator whenever the calendar
date changes (`history_last_date` threaded through), assigning indices via
`assign_index` and rendering each line. -/
def renderHist : List Message → ChatSession → Option Nat →
    ChatSession × Option Nat × List Out
  | [], c, last => (c, last, [])
  | m :: rest, c, last =>
    let sep : List Out := if last ≠ some m.day then [.dateSep m.day] else []
    let c' := (assign_index c m).1
    let line := Out.histLine (assign_index c m).2 m.time
      (senderLabel c.name m.sender m.out)
      m.is_reply (format_message_content m) m.out
    let r := renderHist rest c' (some m.day)
    (r.1, r.2.1, sep ++ line :: r.2.2)

/-- `fetch_and_render_history(limit_count)` with the backend fetch result
passed explicitly.  A non-positive count returns before any output or
fetch; on a successful fetch the index table and counter are reset and the
reversed (chronological) messages are indexed 1..N; a raised fetch error is
reported with the state untouched.  The `if not current_chat` guard of the
source is enforced at the call sites, which only invoke this with the open
session. -/
def fetch_and_render_history (c : ChatSession) (limit : Int)
    (res : Except String (List Message)) :
    ChatSession × List Out × List BCall :=
  if limit ≤ 0 then (c, [], [])
  else
    match res with
    | .error e =>
      (c, [.fetching limit, .historyError e], [.getMessages c.entity.id limit])
    | .ok msgs =>
      let chron := msgs.reverse
      let c0 := { c with message_index_map := [], next_index := 1 }
      let r := renderHist chron c0 none
      let c2 := match r.2.1 with
        | some d => { r.1 with last_message_date := some d }
        | none => r.1
      (c2,
       [.fetching limit, .historyHeader msgs.length] ++ r.2.2 ++ [.historyEnd],
       [.getMessages c.entity.id limit])

/-- The `events.NewMessage` handler: drop the event when no chat is open or
it belongs to a different peer; otherwise print the date separator, index
the message and render it. -/
def handler (cur : Option ChatSession) (ev : Event) :
    Option ChatSession × List Out :=
  match cur with
  | none => (none, [])
  | some c =>
    if ev.chat_id ≠ c.entity.id then (some c, [])
    else
      let p := print_date_separator c ev.message.day
      let c2 := (assign_index p.1 ev.message).1
      let line := Out.liveLine (assign_index p.1 ev.message).2 ev.message.time
        (senderLabel c.name ev.sender ev.message.out)
        ev.message.is_reply (format_message_content ev.message) ev.message.out
      (some c2, p.2 ++ [line])

/-! ## Settings dict helpers -/

/-- `settings[key]` lookup. -/
def lookupSetting (settings : List (String × SVal)) (key : String) : Option SVal :=
  (settings.find? fun p => p.1 = key).map Prod.snd

/-- `settings[key] = v`: in-place update preserving insertion order,
appending when the key is new (Python dict semantics). -/
def setSetting : List (String × SVal) → String → SVal → List (String × SVal)
  | [], k, v => [(k, v)]
  | (k', v') :: t, k, v =>
    if k' = k then (k, v) :: t else (k', v') :: setSetting t k v

/-- `user_settings.get("defaultHistory", 0)` as used in `if def_hist > 0`
and as the fetch limit: an `int` reads off, a `bool` compares as 1/0
(Python truthiness of `True > 0`); a string there would raise in Python and
is read as 0 here. -/
def settingInt (settings : List (String × SVal)) : Int :=
  match lookupSetting settings "defaultHistory" with
  | some (.int n) => n
  | some (.bool b) => if b then 1 else 0
  | some (.str _) => 0
  | none => 0

/-- Value coercion of the generic `/settings key value` branch:
digits to `int`, `true`/`false` (case-insensitive) to `bool`, else the
string itself. -/
def coerceVal (v : String) : SVal :=
  if isDigitStr v then .int (parseNat v)
  else if toLowerStr v = "true" then .bool true
  else if toLowerStr v = "false" then .bool false
  else .str v

/-! ## Command handlers

Each handler models one `elif` arm of the dispatcher loop. -/

/-- `/settings` and `/set`: view, help, or set-and-persist. -/
def settingsCmd (st : AppState) (cmd : List String) : StepResult :=
  match cmd.tail with
  | [] => ⟨st, [.settingsView st.user_settings, .settingsUsage], [], false⟩
  | a0 :: rest =>
    if toLowerStr a0 = "help" then ⟨st, [.settingsHelp], [], false⟩
    else
      match rest with
      | v :: _ =>
        if a0 = "defaultHistory" then
          if isDigitStr v && parseNat v ≤ 100 then
            let s' := setSetting st.user_settings a0 (.int (parseNat v))
            ⟨{ st with user_settings := s', savedSettings := some s' },
             [.settingsSet a0 (.int (parseNat v))], [], false⟩
          else ⟨st, [.settingsInvalidDefaultHistory], [], false⟩
        else
          let v' := coerceVal v
          let s' := setSetting st.user_settings a0 v'
          ⟨{ st with user_settings := s', savedSettings := some s' },
           [.settingsSet a0 v'], [], false⟩
      | [] => ⟨st, [.settingsUsageErr], [], false⟩

/-- `/r off`, `//`, `/out`: close the current chat. -/
def exitChatCmd (st : AppState) : StepResult :=
  match st.current_chat with
  | some c => ⟨{ st with current_chat := none }, [.closedChat c.name], [], false⟩
  | none => ⟨st, [.notInChat], [], false⟩

/-- `/status`, `/s`: refetch the entity and render its presence. -/
def statusCmd (st : AppState) (env : Env) : StepResult :=
  match st.current_chat with
  | none => ⟨st, [.noActiveChat], [], false⟩
  | some c =>
    match env.getEntityById c.entity.id with
    | some fe => ⟨st, [.statusInfo (get_user_status fe)], [.getEntityId c.entity.id], false⟩
    | none => ⟨st, [.statusErr], [.getEntityId c.entity.id], false⟩

/-- Store a resolved reply target: message id plus the last 15 characters
of the rendered content. -/
def setReplyTarget (st : AppState) (c : ChatSession) (m : Message)
    (preOut : List Out) (preCalls : List BCall) : StepResult :=
  let text := contentString (format_message_content m)
  ⟨{ st with current_chat := some ({ c with
      reply_to_msg_id := some m.id,
      reply_snippet := some (strLastN 15 text) }) },
   preOut, preCalls, false⟩

/-- `/reply` / any input starting `/re`: cancel on "cancel" substring or a
bare toggle-off; resolve a numeric index through the index table; else scan
the 50 most recent messages for the newest inbound one. -/
def replyCmd (st : AppState) (env : Env) (cmd : List String) (mc : String) :
    StepResult :=
  match st.current_chat with
  | none => ⟨st, [.noActiveChat], [], false⟩
  | some c =>
    if strContains mc "cancel" then
      ⟨{ st with current_chat := some ({ c with
          reply_to_msg_id := none, reply_snippet := none }) },
       [.replyCancelled], [], false⟩
    else if c.reply_to_msg_id.isSome && cmd.length = 1 then
      ⟨{ st with current_chat := some ({ c with
          reply_to_msg_id := none, reply_snippet := none }) },
       [.replyCancelled], [], false⟩
    else
      match cmd.tail.head? with
      | some a1 =>
        if isDigitStr a1 then
          match lookupIdx c.message_index_map (parseNat a1) with
          | some m => setReplyTarget st c m [] []
          | none => ⟨st, [.msgNotFound (parseNat a1)], [], false⟩
        else
          match (env.recentMessages.take 50).find? (fun m => !m.out) with
          | some m =>
            setReplyTarget st c m [.findingLast] [.iterMessages c.entity.id 50]
          | none =>
            -- len(cmd) != 1 here, so the "none found" notice is skipped
            ⟨st, [.findingLast], [.iterMessages c.entity.id 50], false⟩
      | none =>
        match (env.recentMessages.take 50).find? (fun m => !m.out) with
        | some m =>
          setReplyTarget st c m [.findingLast] [.iterMessages c.entity.id 50]
        | none =>
          ⟨st, [.findingLast, .noMsgsToReply], [.iterMessages c.entity.id 50], false⟩

/-- Validation outcome for one `/delete` argument. -/
def deleteParseArg (c : ChatSession) (a : String) : Sum (Nat × Message) Out :=
  if isDigitStr a then
    match lookupIdx c.message_index_map (parseNat a) with
    | some m => .inl (parseNat a, m)
    | none => .inr (.warnIdxNotFound (parseNat a))
  else .inr (.warnNotNumber a)

/-- The valid (index, message) pairs collected by `/delete`, in argument
order. -/
def deleteValid (c : ChatSession) (args : List String) : List (Nat × Message) :=
  args.filterMap fun a =>
    match deleteParseArg c a with | .inl p => some p | .inr _ => none

/-- The per-argument skip warnings of `/delete`, in argument order. -/
def deleteWarns (c : ChatSession) (args : List String) : List Out :=
  args.filterMap fun a =>
    match deleteParseArg c a with | .inl _ => none | .inr o => some o

/-- `/delete`, `/del`, `/rm`: validate each argument independently, then
one confirmation prompt gating one batched `delete_messages` call. -/
def deleteCmd (st : AppState) (env : Env) (cmd : List String) : StepResult :=
  match st.current_chat with
  | none => ⟨st, [.noActiveChat], [], false⟩
  | some c =>
    if cmd.length < 2 then ⟨st, [.deleteUsage], [], false⟩
    else
      let args := cmd.tail
      let warns := deleteWarns c args
      let valids := deleteValid c args
      if valids.isEmpty then ⟨st, warns ++ [.noValidSelected], [], false⟩
      else
        let msgs := valids.map Prod.snd
        let idxs := valids.map Prod.fst
        let othersWarn : List Out :=
          if msgs.any (fun m => !m.out) then [.warnOthersMessages] else []
        let pre := warns ++ othersWarn ++ [.deleteWarning idxs, .confirmPrompt]
        if toLowerStr env.promptAnswer = "y" then
          let call := BCall.deleteMessages c.entity.id (msgs.map (·.id)) true
          match env.deleteOk with
          | .ok _ => ⟨st, pre ++ [.deleted (msgs.map (·.id)).length], [call], false⟩
          | .error e => ⟨st, pre ++ [.deleteFailed e], [call], false⟩
        else ⟨st, pre ++ [.deletionCancelled], [], false⟩

/-- Remove the first occurrence of an element (`list.remove`). -/
def removeFirst (x : String) : List String → List String
  | [] => []
  | a :: t => if a = x then t else a :: removeFirst x t

/-- `/contacts`: list non-bot user dialogs, recent or alphabetical. -/
def contactsCmd (st : AppState) (env : Env) (cmd : List String) : StepResult :=
  let args0 := cmd.tail
  let sortAlpha := args0.contains "abc"
  let targetCount : Nat := if sortAlpha then 25 else 10
  let args := if sortAlpha then removeFirst "abc" args0 else args0
  let targetCount :=
    match args.head? with
    | some a => if a = "all" then 999999 else if isDigitStr a then parseNat a else targetCount
    | none => targetCount
  let users := (env.dialogs.filter fun d => d.is_user && !d.entity.bot).map (·.entity)
  let shown :=
    if sortAlpha then
      (users.mergeSort fun a b =>
        toLowerStr (get_display_name a) ≤ toLowerStr (get_display_name b)).take targetCount
    else users.take targetCount
  ⟨st, [.contactsOutput shown], [.iterDialogs], false⟩

/-- Dialog filter of `/chats`. -/
def chatsFilterKeep (filt : Option String) (d : Dialog) : Bool :=
  match filt with
  | none => true
  | some "user" => d.is_user
  | some "group" => d.is_group
  | some "channel" => d.is_channel
  | some _ => true

/-- `/chats`: list and cache recent dialogs, optionally filtered by type.
The source appends each dialog before testing `count >= target`, so a
target of 0 still shows one dialog. -/
def chatsCmd (st : AppState) (env : Env) (cmd : List String) : StepResult :=
  let parsed := cmd.tail.foldl (fun (acc : Nat × Option String) a =>
      if isDigitStr a then (parseNat a, acc.2)
      else if toLowerStr a = "users" || toLowerStr a = "user" then (acc.1, some "user")
      else if toLowerStr a = "groups" || toLowerStr a = "group" then (acc.1, some "group")
      else if toLowerStr a = "channels" || toLowerStr a = "channel" then (acc.1, some "channel")
      else acc) (10, none)
  let filtered := env.dialogs.filter (chatsFilterKeep parsed.2)
  let shown := filtered.take (max 1 parsed.1)
  ⟨{ st with chat_list_cache := shown.map (·.entity) },
   [.chatsOutput shown], [.iterDialogs], false⟩

/-- Shared open-a-chat sequence of `/c` and `/r name` (duplicated verbatim
in the source): build a fresh `ChatSession`, print today's separator, try a
presence fetch for users (exceptions swallowed), report the switch, then
auto-load `defaultHistory` messages when configured. -/
def openChat (st : AppState) (env : Env) (e : Entity) : StepResult :=
  let c1 := { ChatSession.create e with last_message_date := some env.today }
  let statusStr : Option String :=
    if e.isUser then
      match env.getEntityById e.id with
      | some fe => get_user_status fe
      | none => none
    else none
  let statusCalls : List BCall := if e.isUser then [.getEntityId e.id] else []
  let baseOut : List Out := [.todaySep env.today, .switchedChat c1.name statusStr]
  let defHist := settingInt st.user_settings
  if defHist > 0 then
    let r := fetch_and_render_history c1 defHist env.fetchHistory
    ⟨{ st with current_chat := some r.1 }, baseOut ++ r.2.1,
     statusCalls ++ r.2.2, false⟩
  else ⟨{ st with current_chat := some c1 }, baseOut, statusCalls, false⟩

/-- `/c n`: jump to the n-th cached chat. -/
def jumpCmd (st : AppState) (env : Env) (cmd : List String) : StepResult :=
  match cmd.tail.head? with
  | none => ⟨st, [.usageC], [], false⟩
  | some a =>
    match parseInt a with
    | none => ⟨st, [.usageC], [], false⟩
    | some n =>
      let idx := n - 1
      if h : 0 ≤ idx ∧ idx.toNat < st.chat_list_cache.length then
        openChat st env (st.chat_list_cache.get ⟨idx.toNat, h.2⟩)
      else ⟨st, [.invalidChatIndex], [], false⟩

/-- `/unread`: scan up to 100 dialogs for unread counts, capped at 10
unless `all` appears in the line. -/
def unreadCmd (st : AppState) (env : Env) (mc : String) : StepResult :=
  let unreads := (env.dialogs.take 100).filter fun d => d.unread_count > 0
  let shown := if strContains mc "all" then unreads else unreads.take 10
  if shown.isEmpty then ⟨st, [.noUnread], [], false⟩
  else ⟨st, [.unreadOutput shown], [.iterDialogs], false⟩

/-- Peer resolution of the recipient command, exactly as coded: a backend
entity lookup for `@`/`+`-prefixed input; else one pass over the dialogs
accepting the first whose display name matches exactly (case-insensitive)
or whose username equals the input with `@`s removed; else the first of the
first 100 dialogs whose display name contains the input. -/
def resolve_entity (env : Env) (tgt : String) : Option Entity :=
  let viaBackend : Option Entity :=
    if strStartsWith "@" tgt || strStartsWith "+" tgt then env.getEntityStr tgt
    else none
  match viaBackend with
  | some e => some e
  | none =>
    match env.dialogs.find? (fun d =>
        toLowerStr (get_display_name d.entity) = toLowerStr tgt ||
        (match d.entity.username with
         | some u => u ≠ "" && toLowerStr u = removeAtSigns (toLowerStr tgt)
         | none => false)) with
    | some d => some d.entity
    | none =>
      ((env.dialogs.take 100).find? fun d =>
        strContains (toLowerStr (get_display_name d.entity)) (toLowerStr tgt)).map (·.entity)

/-- Backend-call trace of one `resolve_entity` run. -/
def resolveCalls (env : Env) (tgt : String) : List BCall :=
  let pre : List BCall :=
    if strStartsWith "@" tgt || strStartsWith "+" tgt then [.getEntityStr tgt] else []
  let viaBackend : Option Entity :=
    if strStartsWith "@" tgt || strStartsWith "+" tgt then env.getEntityStr tgt
    else none
  match viaBackend with
  | some _ => pre
  | none =>
    match env.dialogs.find? (fun d =>
        toLowerStr (get_display_name d.entity) = toLowerStr tgt ||
        (match d.entity.username with
         | some u => u ≠ "" && toLowerStr u = removeAtSigns (toLowerStr tgt)
         | none => false)) with
    | some _ => pre ++ [.iterDialogs]
    | none => pre ++ [.iterDialogs, .iterDialogs]

/-- The recipient command body (only reachable as `/r name`, see
`dispatch`): prompt for a name when absent, resolve, and either open the
chat or report the failure with a usage hint. -/
def recipientCmd (st : AppState) (env : Env) (cmd : List String) : StepResult :=
  let tgt : String := if cmd.length > 1 then joinSp cmd.tail else env.promptAnswer
  let promptOut : List Out := if cmd.length > 1 then [] else [.namePrompt]
  if tgt = "" then ⟨st, promptOut, [], false⟩
  else
    match resolve_entity env tgt with
    | some e =>
      let r := openChat st env e
      ⟨r.state, promptOut ++ .searching tgt :: r.out,
       resolveCalls env tgt ++ r.calls, false⟩
    | none =>
      ⟨st, promptOut ++ [.searching tgt, .couldNotFind tgt, .usageHint],
       resolveCalls env tgt, false⟩

/-- `/history n` / `/h n`: clamp a digit argument at 500, default 20, then
run the loader when a chat is open. -/
def historyCmd (st : AppState) (env : Env) (cmd : List String) : StepResult :=
  let limit : Int :=
    match cmd.tail.head? with
    | some a => if isDigitStr a then ((min (parseNat a) 500 : Nat) : Int) else 20
    | none => 20
  match st.current_chat with
  | some c =>
    let r := fetch_and_render_history c limit env.fetchHistory
    ⟨{ st with current_chat := some r.1 }, r.2.1, r.2.2, false⟩
  | none => ⟨st, [.noActiveChat], [], false⟩

/-- The default action: send the line as a message, attaching and (on
success) clearing any pending reply, and indexing the sent message. -/
def sendCmd (st : AppState) (env : Env) (mc : String) : StepResult :=
  match st.current_chat with
  | none =>
    if strStartsWith "@" mc then ⟨st, [.noRecipientAt mc], [], false⟩
    else ⟨st, [.noRecipient], [], false⟩
  | some c =>
    let c1 := (print_date_separator c env.today).1
    let sepOut := (print_date_separator c env.today).2
    let reply_to := c1.reply_to_msg_id
    let call := BCall.sendMessage c.entity.id mc reply_to
    match env.sendResult with
    | .ok sent =>
      let c2 := (assign_index c1 sent).1
      let idx := (assign_index c1 sent).2
      let c3 :=
        if reply_to.isSome then
          { c2 with reply_to_msg_id := none, reply_snippet := none }
        else c2
      ⟨{ st with current_chat := some c3 },
       sepOut ++ [.sentLine idx env.nowTime reply_to.isSome mc], [call], false⟩
    | .error e =>
      ⟨{ st with current_chat := some c1 }, sepOut ++ [.sendFailed e], [call], false⟩

/-- One pass of the dispatcher loop from the point the prompt returned
`msg` (source lines 341 onward): strip, tokenize, and run the first
matching `elif` arm. -/
def dispatch (st : AppState) (env : Env) (msg : String) : StepResult :=
  let mc := stripStr msg
  let cmd := splitWs mc
  if mc = "" then ⟨st, [], [], false⟩
  else if mc = "/exit" || mc = "--exit" then ⟨st, [], [], true⟩
  else if mc = "/help" || mc = "/h" then ⟨st, [.helpText], [], false⟩
  else if strStartsWith "/settings" mc || strStartsWith "/set " mc then
    settingsCmd st cmd
  else if mc = "/r off" || mc = "//" || mc = "/out" then exitChatCmd st
  else if mc = "/status" || mc = "/s" then statusCmd st env
  else if strStartsWith "/re" mc || strStartsWith "/reply" mc then
    replyCmd st env cmd mc
  else if cmd.head? = some "/delete" || cmd.head? = some "/del" || cmd.head? = some "/rm" then
    deleteCmd st env cmd
  else if strStartsWith "/contacts" mc then contactsCmd st env cmd
  else if strStartsWith "/chats" mc then chatsCmd st env cmd
  else if strStartsWith "/c " mc then jumpCmd st env cmd
  else if strStartsWith "/unread" mc then unreadCmd st env mc
  else if strStartsWith "/recipient" mc || strStartsWith "/r " mc then
    recipientCmd st env cmd
  else if strStartsWith "/history" mc || strStartsWith "/h " mc || mc = "/h" then
    historyCmd st env cmd
  else sendCmd st env mc

/-- The disjunction of every command guard of `dispatch`, as one Boolean:
an input line whose stripped form fails this test takes the default
send-message arm. -/
def isCommandInput (mc : String) : Bool :=
  decide (mc = "") || decide (mc = "/exit") || decide (mc = "--exit") ||
  decide (mc = "/help") || decide (mc = "/h") ||
  strStartsWith "/settings" mc || strStartsWith "/set " mc ||
  decide (mc = "/r off") || decide (mc = "//") || decide (mc = "/out") ||
  decide (mc = "/status") || decide (mc = "/s") ||
  strStartsWith "/re" mc || strStartsWith "/reply" mc ||
  decide ((splitWs mc).head? = some "/delete") ||
  decide ((splitWs mc).head? = some "/del") ||
  decide ((splitWs mc).head? = some "/rm") ||
  strStartsWith "/contacts" mc || strStartsWith "/chats" mc ||
  strStartsWith "/c " mc || strStartsWith "/unread" mc ||
  strStartsWith "/recipient" mc || strStartsWith "/r " mc ||
  strStartsWith "/history" mc || strStartsWith "/h " mc

/-! ## Specification-side resolution (for the refinement comparison of the
recipient command) -/

/-- Peer resolution as the specification words it, for comparison with
`resolve_entity`: the categories `@username`, `+phone`, exact display name
and substring match are tried in that priority order, the first match
winning within each category.  The sigil categories are backend lookups of
`@`/`+`-prefixed input; the name categories are case-insensitive passes
over the dialog list. -/
def resolve_by_spec (env : Env) (tgt : String) : Option Entity :=
  let viaUsername : Option Entity :=
    if strStartsWith "@" tgt then env.getEntityStr tgt else none
  let viaPhone : Option Entity :=
    if strStartsWith "+" tgt then env.getEntityStr tgt else none
  let viaExactName : Option Entity :=
    (env.dialogs.find? fun d =>
      toLowerStr (get_display_name d.entity) = toLowerStr tgt).map (·.entity)
  let viaSubstr : Option Entity :=
    (env.dialogs.find? fun d =>
      strContains (toLowerStr (get_display_name d.entity)) (toLowerStr tgt)).map (·.entity)
  viaUsername <|> viaPhone <|> viaExactName <|> viaSubstr

/-! ## Index-assignment operations (for the index-table invariant)

Exactly three places write `message_index_map` / `next_index`: the history
loader, the live handler, and the local-send branch.  `applyIndexOp`
applies one such source operation to a session. -/

/-- One indexing source acting on the open session: a history (re)load with
its backend outcome, a live inbound event, or a successfully sent
message. -/
inductive IndexOp where
  | histLoad (limit : Int) (res : Except String (List Message))
  | live (ev : Event)
  | send (m : Message)

/-- Apply one indexing operation through the corresponding code path. -/
def applyIndexOp (c : ChatSession) : IndexOp → ChatSession
  | .histLoad n res => (fetch_and_render_history c n res).1
  | .live ev => ((handler (some c) ev).1).getD c
  | .send m => (assign_index c m).1

/-- The index-table invariant: the keys, in insertion order, are exactly
`1, 2, …, next_index - 1` (hence contiguous, duplicate-free, and in order
of appearance), and the counter never falls below 1. -/
def sessionKeysInv (c : ChatSession) : Prop :=
  c.message_index_map.map Prod.fst = List.range' 1 (c.next_index - 1) ∧
    1 ≤ c.next_index

/-- A session exactly as the open-chat code paths produce it: freshly
constructed, with `last_message_date` set to today. -/
def openedSession (e : Entity) (today : Nat) : ChatSession :=
  { ChatSession.create e with last_message_date := some today }

/-! ## Concrete fixtures for witnesses and counterexamples -/

/-- A dialog peer whose display name is "Xavier" but whose username is
"bob". -/
def exXavier : Entity :=
  { id := 7, first_name := some "Xavier", username := some "bob", isUser := true }

/-- A dialog peer whose display name is exactly "bob". -/
def exBobName : Entity := { id := 8, first_name := some "bob", isUser := true }

/-- The peer of the fixture chat session. -/
def exPeer : Entity := { id := 5, first_name := some "Alice", isUser := true }

/-- Fixture messages. -/
def exM1 : Message := { id := 101, day := 1, out := true, text := "hi" }

def exM2 : Message := { id := 102, day := 1, out := false, text := "yo" }

def exM3 : Message := { id := 103, day := 2, out := true, text := "sup" }

/-- A fixture open session whose index table holds indices 2 and 3 only
(index 1 was dropped by the session's history flow being at `next_index
= 4`; for the delete fixture only membership matters). -/
def exSession : ChatSession :=
  { entity := exPeer
    name := "Alice"
    last_message_date := some 2
    reply_to_msg_id := none
    reply_snippet := none
    message_index_map := [(2, exM2), (3, exM3)]
    next_index := 4 }

/-- A benign fixture environment. -/
def exEnv : Env :=
  { dialogs := [⟨exXavier, true, false, false, 0⟩]
    getEntityStr := fun _ => none
    getEntityById := fun _ => none
    fetchHistory := .ok [exM3, exM2, exM1]
    sendResult := .ok { id := 200, day := 2, out := true, text := "ok" }
    deleteOk := .ok ()
    recentMessages := [exM3, exM2, exM1]
    promptAnswer := "y"
    today := 2
    nowTime := "12:00" }

/-- Environment whose dialog list also contains an exact display-name
match after the username match, for the recipient counterexample. -/
def exEnvR : Env := { exEnv with
  dialogs := [⟨exXavier, true, false, false, 0⟩, ⟨exBobName, true, false, false, 0⟩] }

/-- App state with no open chat. -/
def exStClosed : AppState :=
  { current_chat := none
    user_settings := [("defaultHistory", .int 0), ("autoClearMsgLog", .bool false)]
    chat_list_cache := []
    savedSettings := none }

/-- App state with the fixture session open. -/
def exStOpen : AppState := { exStClosed with current_chat := some exSession }

/-- Fixture session with a pending reply to message 102. -/
def exSessionReply : ChatSession :=
  { exSession with reply_to_msg_id := some 102, reply_snippet := some "yo" }

/-- App state with the pending-reply session open. -/
def exStReply : AppState := { exStClosed with current_chat := some exSessionReply }

/-! ## String lemma kit -/

theorem mem_of_getLast?_eq {l : List Char} {a : Char} (h : l.getLast? = some a) :
    a ∈ l := by
  obtain ⟨hne, rfl⟩ := List.mem_getLast?_eq_getLast (l := l) (x := a) h
  exact List.getLast_mem hne

theorem dropWhile_eq_self_of_head? {l : List Char}
    (h : ∀ c, l.head? = some c → c.isWhitespace = false) :
    l.dropWhile Char.isWhitespace = l := by
  cases l with
  | nil => rfl
  | cons c t => simp [List.dropWhile, h c rfl]

/-- `strip` leaves a string alone when neither end is whitespace. -/
theorem stripList_eq_self {l : List Char}
    (h1 : ∀ c, l.head? = some c → c.isWhitespace = false)
    (h2 : ∀ c, l.getLast? = some c → c.isWhitespace = false) :
    stripList l = l := by
  unfold stripList
  rw [dropWhile_eq_self_of_head? h1]
  rw [dropWhile_eq_self_of_head? (by
    intro c hc
    rw [List.head?_reverse] at hc
    exact h2 c hc)]
  exact l.reverse_reverse

theorem isTok_ne_nil {x : String} (h : isTok x = true) : x.data ≠ [] := by
  simp [isTok] at h
  intro hx
  rw [hx] at h
  simp at h

theorem isTok_all_nonws {x : String} (h : isTok x = true) :
    ∀ c ∈ x.data, c.isWhitespace = false := by
  simp [isTok, List.all_eq_true] at h
  intro c hc
  simpa using h.2 c hc

/-- Head and last of a token are not whitespace, hence `strip` is the
identity on tokens. -/
theorem mem_of_head?_eq {l : List Char} {a : Char} (h : l.head? = some a) :
    a ∈ l := by
  cases l with
  | nil => simp at h
  | cons c t =>
    simp at h
    rw [← h]
    simp

theorem stripStr_token {x : String} (h : isTok x = true) : stripStr x = x := by
  have hall := isTok_all_nonws h
  have : stripList x.data = x.data :=
    stripList_eq_self
      (fun c hc => hall c (mem_of_head?_eq hc))
      (fun c hc => hall c (mem_of_getLast?_eq hc))
  simp [stripStr, this]

theorem splitWsAux_all_nonws {l : List Char} (acc : List Char)
    (h : ∀ c ∈ l, c.isWhitespace = false) :
    splitWsAux l acc =
      if acc.isEmpty && l.isEmpty then [] else [acc.reverse ++ l] := by
  induction l generalizing acc with
  | nil => cases acc <;> simp [splitWsAux]
  | cons c t ih =>
    have hc : c.isWhitespace = false := h c (by simp)
    have ht : ∀ d ∈ t, d.isWhitespace = false := fun d hd => h d (by simp [hd])
    rw [splitWsAux, if_neg (by simp [hc]), ih (c :: acc) ht]
    cases acc <;> simp

/-- `str.split()` of a single token. -/
theorem splitWs_token {x : String} (h : isTok x = true) : splitWs x = [x] := by
  rw [splitWs, splitWsAux_all_nonws [] (isTok_all_nonws h)]
  have := isTok_ne_nil h
  rw [if_neg (by simpa using this)]
  simp

theorem splitWsAux_nonws_append {t : List Char} (l acc : List Char)
    (h : ∀ c ∈ t, c.isWhitespace = false) :
    splitWsAux (t ++ l) acc = splitWsAux l (t.reverse ++ acc) := by
  induction t generalizing acc with
  | nil => simp
  | cons c t2 ih =>
    have hc : c.isWhitespace = false := h c (by simp)
    rw [List.cons_append, splitWsAux, if_neg (by simp [hc])]
    rw [ih (c :: acc) (fun d hd => h d (by simp [hd]))]
    simp

theorem joinSp_cons_cons (x y : String) (t : List String) :
    joinSp (x :: y :: t) = x ++ " " ++ joinSp (y :: t) := rfl

/-- `" ".join` then `str.split()` round-trips on non-empty token lists. -/
theorem splitWs_joinSp {toks : List String} (h : ∀ t ∈ toks, isTok t = true)
    (hne : toks ≠ []) : splitWs (joinSp toks) = toks := by
  induction toks with
  | nil => exact absurd rfl hne
  | cons x xs ih =>
    cases xs with
    | nil => exact splitWs_token (h x (by simp))
    | cons y t =>
      have hx : isTok x = true := h x (by simp)
      have hrest : ∀ u ∈ y :: t, isTok u = true := fun u hu => h u (by simp [hu])
      have hdata : (joinSp (x :: y :: t)).data
          = x.data ++ (' ' :: (joinSp (y :: t)).data) := by
        rw [joinSp_cons_cons]
        simp
      rw [splitWs, hdata, splitWsAux_nonws_append _ [] (isTok_all_nonws hx)]
      rw [splitWsAux, if_pos (by simp), if_neg (by simpa using isTok_ne_nil hx)]
      have ihr := ih hrest (by simp)
      rw [splitWs] at ihr
      simp only [List.map_cons, List.append_nil, List.reverse_reverse]
      rw [ihr]

theorem joinSp_data_ne_nil {toks : List String}
    (h : ∀ t ∈ toks, isTok t = true) (hne : toks ≠ []) :
    (joinSp toks).data ≠ [] := by
  cases toks with
  | nil => exact absurd rfl hne
  | cons x xs =>
    cases xs with
    | nil => exact isTok_ne_nil (h x (by simp))
    | cons y t =>
      have hdata : (joinSp (x :: y :: t)).data
          = x.data ++ (' ' :: (joinSp (y :: t)).data) := by
        rw [joinSp_cons_cons]
        simp
      rw [hdata]
      simp

theorem joinSp_head?_nonws {toks : List String}
    (h : ∀ t ∈ toks, isTok t = true) :
    ∀ c, (joinSp toks).data.head? = some c → c.isWhitespace = false := by
  intro c hc
  cases toks with
  | nil => simp [joinSp] at hc
  | cons x xs =>
    have hx := isTok_all_nonws (h x (by simp))
    have hxd : x.data.head? = some c → c.isWhitespace = false := fun hh =>
      hx c (mem_of_head?_eq hh)
    cases xs with
    | nil => exact hxd hc
    | cons y t =>
      have hdata : (joinSp (x :: y :: t)).data
          = x.data ++ (' ' :: (joinSp (y :: t)).data) := by
        rw [joinSp_cons_cons]
        simp
      rw [hdata, List.head?_append] at hc
      cases hd : x.data.head? with
      | some a =>
        rw [hd] at hc
        simp at hc
        exact hxd (by rw [hd, hc])
      | none =>
        exact absurd (by simpa using hd) (isTok_ne_nil (h x (by simp)))

theorem joinSp_getLast?_nonws {toks : List String}
    (h : ∀ t ∈ toks, isTok t = true) :
    ∀ c, (joinSp toks).data.getLast? = some c → c.isWhitespace = false := by
  induction toks with
  | nil => intro c hc; simp [joinSp] at hc
  | cons x xs ih =>
    intro c hc
    cases xs with
    | nil =>
      exact isTok_all_nonws (h x (by simp)) c (mem_of_getLast?_eq hc)
    | cons y t =>
      have hj : (joinSp (y :: t)).data ≠ [] :=
        joinSp_data_ne_nil (fun u hu => h u (by simp [hu])) (by simp)
      have hdata : (joinSp (x :: y :: t)).data
          = x.data ++ (' ' :: (joinSp (y :: t)).data) := by
        rw [joinSp_cons_cons]
        simp
      rw [hdata, List.getLast?_append_of_ne_nil _ (by simp)] at hc
      rw [show (' ' :: (joinSp (y :: t)).data) = [' '] ++ (joinSp (y :: t)).data
        from rfl] at hc
      rw [List.getLast?_append_of_ne_nil _ hj] at hc
      exact ih (fun u hu => h u (by simp [hu])) c hc

/-- `strip` is the identity on a `" ".join` of tokens. -/
theorem stripStr_joinSp {toks : List String}
    (h : ∀ t ∈ toks, isTok t = true) :
    stripStr (joinSp toks) = joinSp toks := by
  have : stripList (joinSp toks).data = (joinSp toks).data :=
    stripList_eq_self (joinSp_head?_nonws h) (joinSp_getLast?_nonws h)
  simp [stripStr, this]

theorem isPrefixOf_append_self (p rest : List Char) :
    List.isPrefixOf p (p ++ rest) = true := by
  induction p with
  | nil => simp [List.isPrefixOf]
  | cons c t ih => simp [List.isPrefixOf, ih]

theorem strStartsWith_append (p : String) (rest : List Char) :
    strStartsWith p ⟨p.data ++ rest⟩ = true :=
  isPrefixOf_append_self p.data rest

/-! ## Routing lemmas: which dispatcher arm a given input line reaches -/

theorem dispatch_joinSp_delete (st : AppState) (env : Env) (args : List String)
    (h : ∀ a ∈ args, isTok a = true) :
    dispatch st env (joinSp ("/delete" :: args))
      = deleteCmd st env ("/delete" :: args) := by
  have htoks : ∀ t ∈ ("/delete" :: args), isTok t = true := by
    intro t ht
    rcases List.mem_cons.mp ht with rfl | hmem
    · decide
    · exact h t hmem
  have hstrip := stripStr_joinSp htoks
  have hsplit := splitWs_joinSp htoks (by simp)
  have hdata : ∃ tail, (joinSp ("/delete" :: args)).data
      = '/' :: 'd' :: 'e' :: 'l' :: 'e' :: 't' :: 'e' :: tail := by
    cases args with
    | nil => exact ⟨[], rfl⟩
    | cons a t =>
      refine ⟨(' ' :: (joinSp (a :: t)).data), ?_⟩
      rw [joinSp_cons_cons]
      simp
  obtain ⟨tail, hdata⟩ := hdata
  have hM : joinSp ("/delete" :: args)
      = ⟨'/' :: 'd' :: 'e' :: 'l' :: 'e' :: 't' :: 'e' :: tail⟩ := by
    rw [String.ext_iff]
    exact hdata
  rw [dispatch, hstrip, hsplit, hM]
  rfl

theorem dispatch_joinSp_history (st : AppState) (env : Env) (args : List String)
    (h : ∀ a ∈ args, isTok a = true) :
    dispatch st env (joinSp ("/history" :: args))
      = historyCmd st env ("/history" :: args) := by
  have htoks : ∀ t ∈ ("/history" :: args), isTok t = true := by
    intro t ht
    rcases List.mem_cons.mp ht with rfl | hmem
    · decide
    · exact h t hmem
  have hstrip := stripStr_joinSp htoks
  have hsplit := splitWs_joinSp htoks (by simp)
  have hdata : ∃ tail, (joinSp ("/history" :: args)).data
      = '/' :: 'h' :: 'i' :: 's' :: 't' :: 'o' :: 'r' :: 'y' :: tail := by
    cases args with
    | nil => exact ⟨[], rfl⟩
    | cons a t =>
      refine ⟨(' ' :: (joinSp (a :: t)).data), ?_⟩
      rw [joinSp_cons_cons]
      simp
  obtain ⟨tail, hdata⟩ := hdata
  have hM : joinSp ("/history" :: args)
      = ⟨'/' :: 'h' :: 'i' :: 's' :: 't' :: 'o' :: 'r' :: 'y' :: tail⟩ := by
    rw [String.ext_iff]
    exact hdata
  have hg : strStartsWith "/history"
      (⟨'/' :: 'h' :: 'i' :: 's' :: 't' :: 'o' :: 'r' :: 'y' :: tail⟩ : String) = true :=
    strStartsWith_append "/history" tail
  rw [dispatch, hstrip, hsplit, hM, hg]
  rfl

theorem dispatch_joinSp_set (st : AppState) (env : Env) (a : String)
    (args : List String) (ha : isTok a = true)
    (h : ∀ u ∈ args, isTok u = true) :
    dispatch st env (joinSp ("/set" :: a :: args))
      = settingsCmd st ("/set" :: a :: args) := by
  have htoks : ∀ t ∈ ("/set" :: a :: args), isTok t = true := by
    intro t ht
    rcases List.mem_cons.mp ht with rfl | hmem
    · decide
    · rcases List.mem_cons.mp hmem with rfl | hmem2
      · exact ha
      · exact h t hmem2
  have hstrip := stripStr_joinSp htoks
  have hsplit := splitWs_joinSp htoks (by simp)
  have hdata : (joinSp ("/set" :: a :: args)).data
      = '/' :: 's' :: 'e' :: 't' :: ' ' :: (joinSp (a :: args)).data := by
    rw [joinSp_cons_cons]
    simp
  have hM : joinSp ("/set" :: a :: args)
      = ⟨'/' :: 's' :: 'e' :: 't' :: ' ' :: (joinSp (a :: args)).data⟩ := by
    rw [String.ext_iff]
    exact hdata
  have hg : strStartsWith "/set "
      (⟨'/' :: 's' :: 'e' :: 't' :: ' ' :: (joinSp (a :: args)).data⟩ : String) = true :=
    strStartsWith_append "/set " (joinSp (a :: args)).data
  rw [dispatch, hstrip, hsplit, hM, hg]
  rfl

theorem dispatch_joinSp_r (st : AppState) (env : Env) (args : List String)
    (h : ∀ a ∈ args, isTok a = true) (hne : args ≠ [])
    (hoff : args ≠ ["off"]) :
    dispatch st env (joinSp ("/r" :: args))
      = recipientCmd st env ("/r" :: args) := by
  have htoks : ∀ t ∈ ("/r" :: args), isTok t = true := by
    intro t ht
    rcases List.mem_cons.mp ht with rfl | hmem
    · decide
    · exact h t hmem
  have hstrip := stripStr_joinSp htoks
  have hsplit := splitWs_joinSp htoks (by simp)
  have hdata : (joinSp ("/r" :: args)).data
      = '/' :: 'r' :: ' ' :: (joinSp args).data := by
    cases args with
    | nil => exact absurd rfl hne
    | cons a t =>
      rw [joinSp_cons_cons]
      simp
  have hM : joinSp ("/r" :: args) = ⟨'/' :: 'r' :: ' ' :: (joinSp args).data⟩ := by
    rw [String.ext_iff]
    exact hdata
  have hneoff : ¬((⟨'/' :: 'r' :: ' ' :: (joinSp args).data⟩ : String) = "/r off") := by
    intro heq
    have hJ : (joinSp args).data = "off".data := by
      have := congrArg String.data heq
      simpa using this
    have hJ2 : joinSp args = "off" := by
      rw [String.ext_iff]
      exact hJ
    have := splitWs_joinSp h hne
    rw [hJ2] at this
    have : args = ["off"] := by
      rw [← this]
      decide
    exact hoff this
  have hoffdec :
      decide ((⟨'/' :: 'r' :: ' ' :: (joinSp args).data⟩ : String) = "/r off") = false :=
    decide_eq_false hneoff
  have hg : strStartsWith "/r "
      (⟨'/' :: 'r' :: ' ' :: (joinSp args).data⟩ : String) = true :=
    strStartsWith_append "/r " (joinSp args).data
  rw [dispatch, hstrip, hsplit, hM, hoffdec, hg]
  rfl

/-! ## Index-table invariant lemmas -/

theorem range'_snoc (s n : Nat) :
    List.range' s n ++ [s + n] = List.range' s (n + 1) := by
  induction n generalizing s with
  | zero => simp [List.range']
  | succ k ih =>
    rw [List.range'_succ, List.range'_succ]
    have := ih (s + 1)
    rw [show s + (k + 1) = (s + 1) + k by omega] at *
    simp [this]

theorem range'_one_snoc {n : Nat} (h : 1 ≤ n) :
    List.range' 1 (n - 1) ++ [n] = List.range' 1 n := by
  have := range'_snoc 1 (n - 1)
  rw [show 1 + (n - 1) = n by omega, show n - 1 + 1 = n by omega] at this
  exact this

theorem sessionKeysInv_assign {c : ChatSession} (m : Message)
    (h : sessionKeysInv c) : sessionKeysInv (assign_index c m).1 := by
  obtain ⟨hkeys, hpos⟩ := h
  constructor
  · simp only [assign_index, List.map_append, List.map_cons, List.map_nil]
    rw [hkeys, Nat.add_sub_cancel]
    exact range'_one_snoc hpos
  · simp only [assign_index]
    omega

theorem sessionKeysInv_reset (c : ChatSession) :
    sessionKeysInv { c with message_index_map := [], next_index := 1 } := by
  constructor <;> simp [sessionKeysInv]

theorem renderHist_inv (l : List Message) :
    ∀ (c : ChatSession) (last : Option Nat), sessionKeysInv c →
      sessionKeysInv (renderHist l c last).1 := by
  induction l with
  | nil =>
    intro c last h
    simpa [renderHist] using h
  | cons m rest ih =>
    intro c last h
    exact ih (assign_index c m).1 (some m.day) (sessionKeysInv_assign m h)

theorem fetch_and_render_history_inv (c : ChatSession) (limit : Int)
    (res : Except String (List Message)) (h : sessionKeysInv c) :
    sessionKeysInv (fetch_and_render_history c limit res).1 := by
  by_cases hl : limit ≤ 0
  · simp only [fetch_and_render_history, if_pos hl]
    exact h
  · cases res with
    | error e =>
      simp only [fetch_and_render_history, if_neg hl]
      exact h
    | ok msgs =>
      have hr := renderHist_inv msgs.reverse
        { c with message_index_map := [], next_index := 1 } none
        (sessionKeysInv_reset c)
      simp only [fetch_and_render_history, if_neg hl]
      split
      · exact hr
      · exact hr

theorem print_date_separator_inv (c : ChatSession) (day : Nat)
    (h : sessionKeysInv c) : sessionKeysInv (print_date_separator c day).1 := by
  unfold print_date_separator
  split
  · exact h
  · exact h

theorem handler_inv (c : ChatSession) (ev : Event) (h : sessionKeysInv c) :
    sessionKeysInv (((handler (some c) ev).1).getD c) := by
  by_cases hid : ev.chat_id ≠ c.entity.id
  · simp only [handler, if_pos hid]
    exact h
  · simp only [handler, if_neg hid]
    exact sessionKeysInv_assign ev.message
      (print_date_separator_inv c ev.message.day h)

theorem applyIndexOp_inv (c : ChatSession) (op : IndexOp) (h : sessionKeysInv c) :
    sessionKeysInv (applyIndexOp c op) := by
  cases op with
  | histLoad n res => exact fetch_and_render_history_inv c n res h
  | live ev => exact handler_inv c ev h
  | send m => exact sessionKeysInv_assign m h

theorem foldl_applyIndexOp_inv (ops : List IndexOp) :
    ∀ (c : ChatSession), sessionKeysInv c →
      sessionKeysInv (ops.foldl applyIndexOp c) := by
  induction ops with
  | nil => intro c h; exact h
  | cons op rest ih =>
    intro c h
    exact ih (applyIndexOp c op) (applyIndexOp_inv c op h)

/-! ## History reload determinism lemmas -/

theorem renderHist_congr (l : List Message) :
    ∀ (c₁ c₂ : ChatSession) (last : Option Nat),
      c₁.message_index_map = c₂.message_index_map →
      c₁.next_index = c₂.next_index →
      (renderHist l c₁ last).1.message_index_map
          = (renderHist l c₂ last).1.message_index_map ∧
        (renderHist l c₁ last).1.next_index = (renderHist l c₂ last).1.next_index := by
  induction l with
  | nil =>
    intro c₁ c₂ last hm hn
    simpa [renderHist] using ⟨hm, hn⟩
  | cons m rest ih =>
    intro c₁ c₂ last hm hn
    exact ih (assign_index c₁ m).1 (assign_index c₂ m).1 (some m.day)
      (by simp [assign_index, hm, hn]) (by simp [assign_index, hn])

/-- An input line that matches none of the command guards takes the default
send arm. -/
theorem dispatch_default_send (st : AppState) (env : Env) (msg : String)
    (h : isCommandInput (stripStr msg) = false) :
    dispatch st env msg = sendCmd st env (stripStr msg) := by
  rw [isCommandInput] at h
  simp only [Bool.or_eq_false_iff] at h
  obtain ⟨⟨⟨⟨⟨⟨⟨⟨⟨⟨⟨⟨⟨⟨⟨⟨⟨⟨⟨⟨⟨⟨⟨⟨h1, h2⟩, h3⟩, h4⟩, h5⟩, h6⟩, h7⟩, h8⟩, h9⟩, h10⟩, h11⟩, h12⟩, h13⟩, h14⟩, h15⟩, h16⟩, h17⟩, h18⟩, h19⟩, h20⟩, h21⟩, h22⟩, h23⟩, h24⟩, h25⟩ := h
  rw [dispatch]
  simp only [h2, h3, h4, h5, h6, h7, h8, h9, h10, h11, h12, h13, h14, h15,
    h16, h17, h18, h19, h20, h21, h22, h23, h24, h25, Bool.or_self,
    Bool.or_false, Bool.false_or]
  rw [if_neg (of_decide_eq_false h1)]
  simp

/-! ## Small helper lemmas for the claim theorems -/

theorem appState_set_same_chat (st : AppState) (s : ChatSession)
    (h : st.current_chat = some s) : { st with current_chat := some s } = st := by
  cases st
  simp only [AppState.mk.injEq, and_true, true_and]
  simp only at h
  exact h.symm

theorem print_date_separator_fields (c : ChatSession) (day : Nat) :
    (print_date_separator c day).1.reply_to_msg_id = c.reply_to_msg_id ∧
      (print_date_separator c day).1.reply_snippet = c.reply_snippet ∧
      (print_date_separator c day).1.message_index_map = c.message_index_map ∧
      (print_date_separator c day).1.next_index = c.next_index ∧
      (print_date_separator c day).1.entity = c.entity ∧
      (print_date_separator c day).1.name = c.name := by
  unfold print_date_separator
  split <;> simp

/-! ## Claim theorems -/

/-- Claim C9: an input line that is empty or all whitespace is a complete
no-op of the dispatcher: no output line, no backend call, no state change,
and the loop continues. -/
theorem C9_blank_input_noop (st : AppState) (env : Env) (msg : String)
    (h : stripStr msg = "") :
    dispatch st env msg = ⟨st, [], [], false⟩ := by
  rw [dispatch, h]
  exact rfl

/-- Witness for C9 at the concrete whitespace-only line `"   "`. -/
theorem C9_blank_input_noop_witness :
    stripStr "   " = "" ∧
      dispatch exStClosed exEnv "   " = ⟨exStClosed, [], [], false⟩ :=
  ⟨by decide, C9_blank_input_noop exStClosed exEnv "   " (by decide)⟩

/-- Claim C3: when the backend history fetch raises, the loader reports the
error and the whole session state — index table, counter, last rendered
date, pending reply — is exactly what it was before the call. -/
theorem C3_fetch_failure_keeps_state (c : ChatSession) (n : Int) (e : String)
    (h : 0 < n) :
    (fetch_and_render_history c n (.error e)).1 = c ∧
      Out.historyError e ∈ (fetch_and_render_history c n (.error e)).2.1 := by
  have hl : ¬ n ≤ 0 := by omega
  simp only [fetch_and_render_history, if_neg hl]
  simp

/-- Witness for C3 at a concrete failed fetch. -/
theorem C3_fetch_failure_keeps_state_witness :
    (0 : Int) < 3 ∧
      ((fetch_and_render_history exSession 3 (.error "net")).1 = exSession ∧
        Out.historyError "net" ∈ (fetch_and_render_history exSession 3 (.error "net")).2.1) :=
  ⟨by decide, C3_fetch_failure_keeps_state exSession 3 "net" (by decide)⟩

theorem fetch_ok_state_congr (c₁ c₂ : ChatSession) (n : Int)
    (msgs : List Message) (h : ¬ n ≤ 0) :
    (fetch_and_render_history c₁ n (.ok msgs)).1.message_index_map
        = (fetch_and_render_history c₂ n (.ok msgs)).1.message_index_map ∧
      (fetch_and_render_history c₁ n (.ok msgs)).1.next_index
        = (fetch_and_render_history c₂ n (.ok msgs)).1.next_index := by
  have hcongr := renderHist_congr msgs.reverse
    { c₁ with message_index_map := [], next_index := 1 }
    { c₂ with message_index_map := [], next_index := 1 } none rfl rfl
  simp only [fetch_and_render_history, if_neg h]
  constructor
  · split <;> split <;> exact hcongr.1
  · split <;> split <;> exact hcongr.2

/-- Claim C5: reloading history with the same count and the same fetched
messages produces the identical index assignment — same table, same order,
same final `next_index`. -/
theorem C5_history_reload_idempotent (c : ChatSession) (n : Int)
    (msgs : List Message) (h : 0 < n) :
    (fetch_and_render_history
        (fetch_and_render_history c n (.ok msgs)).1 n (.ok msgs)).1.message_index_map
        = (fetch_and_render_history c n (.ok msgs)).1.message_index_map ∧
      (fetch_and_render_history
          (fetch_and_render_history c n (.ok msgs)).1 n (.ok msgs)).1.next_index
        = (fetch_and_render_history c n (.ok msgs)).1.next_index :=
  fetch_ok_state_congr (fetch_and_render_history c n (.ok msgs)).1 c n msgs (by omega)

/-- Witness for C5 at a concrete three-message reload. -/
theorem C5_history_reload_idempotent_witness :
    (0 : Int) < 3 ∧
      ((fetch_and_render_history
          (fetch_and_render_history exSession 3 (.ok [exM3, exM2, exM1])).1 3
          (.ok [exM3, exM2, exM1])).1.message_index_map
        = (fetch_and_render_history exSession 3
            (.ok [exM3, exM2, exM1])).1.message_index_map ∧
      (fetch_and_render_history
          (fetch_and_render_history exSession 3 (.ok [exM3, exM2, exM1])).1 3
          (.ok [exM3, exM2, exM1])).1.next_index
        = (fetch_and_render_history exSession 3
            (.ok [exM3, exM2, exM1])).1.next_index) :=
  ⟨by decide, C5_history_reload_idempotent exSession 3 [exM3, exM2, exM1] (by decide)⟩

/-- Claim C4: `/history n` invokes the loader with `min n 500` for a digit
argument and 20 otherwise; bare `/history` uses 20; an effective count of 0
performs no fetch, emits nothing and leaves the state unchanged. -/
theorem C4_history_clamp_default_zero (st : AppState) (env : Env)
    (s : ChatSession) (arg : String) (hchat : st.current_chat = some s)
    (htok : isTok arg = true) :
    (dispatch st env (joinSp ["/history", arg])
        = ⟨{ st with current_chat := some ((fetch_and_render_history s
              (if isDigitStr arg then ((min (parseNat arg) 500 : Nat) : Int) else 20)
              env.fetchHistory).1) },
           (fetch_and_render_history s
             (if isDigitStr arg then ((min (parseNat arg) 500 : Nat) : Int) else 20)
             env.fetchHistory).2.1,
           (fetch_and_render_history s
             (if isDigitStr arg then ((min (parseNat arg) 500 : Nat) : Int) else 20)
             env.fetchHistory).2.2, false⟩) ∧
      (dispatch st env "/history"
        = ⟨{ st with current_chat := some ((fetch_and_render_history s 20
              env.fetchHistory).1) },
           (fetch_and_render_history s 20 env.fetchHistory).2.1,
           (fetch_and_render_history s 20 env.fetchHistory).2.2, false⟩) ∧
      (isDigitStr arg = true → parseNat arg = 0 →
        dispatch st env (joinSp ["/history", arg]) = ⟨st, [], [], false⟩) := by
  have harg : ∀ a ∈ [arg], isTok a = true := by
    intro a ha
    rw [List.mem_singleton] at ha
    rw [ha]
    exact htok
  have hroute := dispatch_joinSp_history st env [arg] harg
  have hroute0 := dispatch_joinSp_history st env [] (by intro a ha; simp at ha)
  refine ⟨?_, ?_, ?_⟩
  · rw [hroute]
    simp only [historyCmd, hchat]
    rfl
  · have heq : joinSp ["/history"] = "/history" := rfl
    rw [heq] at hroute0
    rw [hroute0]
    unfold historyCmd
    rw [hchat]
    rfl
  · intro hdig hz
    rw [hroute]
    unfold historyCmd
    rw [hchat]
    simp [hdig, hz, fetch_and_render_history, appState_set_same_chat st s hchat]

/-- Witness for C4 at `/history 700` (clamped to 500), bare `/history`,
and `/history 0` (no-op) against the fixture session. -/
theorem C4_history_clamp_default_zero_witness :
    exStOpen.current_chat = some exSession ∧ isTok "700" = true ∧
      (dispatch exStOpen exEnv (joinSp ["/history", "700"])).calls
        = [BCall.getMessages 5 500] ∧
      (dispatch exStOpen exEnv "/history").calls = [BCall.getMessages 5 20] ∧
      dispatch exStOpen exEnv (joinSp ["/history", "0"]) = ⟨exStOpen, [], [], false⟩ := by
  have h700 := C4_history_clamp_default_zero exStOpen exEnv exSession "700"
    (by decide) (by decide)
  have h0 := C4_history_clamp_default_zero exStOpen exEnv exSession "0"
    (by decide) (by decide)
  refine ⟨by decide, by decide, ?_, ?_, h0.2.2 (by decide) (by decide)⟩
  · rw [h700.1]
    decide
  · rw [h700.2.1]
    decide

/-- Claim C8: the live listener drops events when no chat is open or the
event belongs to another peer (no session mutation, no output); for an
event of the open peer it emits a date separator exactly when the event's
day differs from the last rendered one, indexes the message at the next
visual index, and renders the sender label with the formatted content. -/
theorem C8_live_listener (c : ChatSession) (ev : Event) :
    handler none ev = (none, []) ∧
      (ev.chat_id ≠ c.entity.id → handler (some c) ev = (some c, [])) ∧
      (ev.chat_id = c.entity.id →
        ∃ c', (handler (some c) ev).1 = some c' ∧
          c'.message_index_map
              = c.message_index_map ++ [(c.next_index, ev.message)] ∧
          c'.next_index = c.next_index + 1 ∧
          ((Out.dateSep ev.message.day ∈ (handler (some c) ev).2)
              ↔ c.last_message_date ≠ some ev.message.day) ∧
          Out.liveLine c.next_index ev.message.time
              (senderLabel c.name ev.sender ev.message.out)
              ev.message.is_reply (format_message_content ev.message)
              ev.message.out ∈ (handler (some c) ev).2) := by
  refine ⟨rfl, ?_, ?_⟩
  · intro hne
    simp only [handler, if_pos hne]
  · intro heq
    refine ⟨(assign_index (print_date_separator c ev.message.day).1 ev.message).1,
      ?_, ?_, ?_, ?_, ?_⟩ <;>
      by_cases hd : c.last_message_date = some ev.message.day <;>
        simp [handler, print_date_separator, assign_index, heq, hd]

/-- Witness for C8: a matching and a non-matching concrete event against
the fixture session. -/
theorem C8_live_listener_witness :
    ((6 : Int) ≠ exSession.entity.id ∧
      handler (some exSession) ⟨6, none, exM1⟩ = (some exSession, [])) ∧
    ((5 : Int) = exSession.entity.id ∧
      ∃ c', (handler (some exSession) ⟨5, none, exM1⟩).1 = some c' ∧
        c'.message_index_map
            = exSession.message_index_map ++ [(exSession.next_index, exM1)] ∧
        c'.next_index = exSession.next_index + 1 ∧
        ((Out.dateSep exM1.day ∈ (handler (some exSession) ⟨5, none, exM1⟩).2)
            ↔ exSession.last_message_date ≠ some exM1.day) ∧
        Out.liveLine exSession.next_index exM1.time
            (senderLabel exSession.name none exM1.out)
            exM1.is_reply (format_message_content exM1)
            exM1.out ∈ (handler (some exSession) ⟨5, none, exM1⟩).2) :=
  ⟨⟨by decide, (C8_live_listener exSession ⟨6, none, exM1⟩).2.1 (by decide)⟩,
   ⟨by decide, (C8_live_listener exSession ⟨5, none, exM1⟩).2.2 (by decide)⟩⟩

/-- Claim C6: a default-action send with a pending reply set clears the
pending reply and indexes the sent message exactly when the backend send
succeeds; a failed send reports the failure and leaves the pending reply
and index table untouched, so a retry keeps the reply context. -/
theorem C6_send_clears_reply_only_on_success (st : AppState) (env : Env)
    (msg : String) (s : ChatSession) (r : Int)
    (hroute : isCommandInput (stripStr msg) = false)
    (hchat : st.current_chat = some s) (hr : s.reply_to_msg_id = some r) :
    (∀ sm, env.sendResult = .ok sm →
      ∃ c', (dispatch st env msg).state.current_chat = some c' ∧
        c'.reply_to_msg_id = none ∧ c'.reply_snippet = none ∧
        c'.message_index_map = s.message_index_map ++ [(s.next_index, sm)] ∧
        c'.next_index = s.next_index + 1 ∧
        (dispatch st env msg).calls
          = [.sendMessage s.entity.id (stripStr msg) (some r)]) ∧
    (∀ e, env.sendResult = .error e →
      ∃ c', (dispatch st env msg).state.current_chat = some c' ∧
        c'.reply_to_msg_id = some r ∧ c'.reply_snippet = s.reply_snippet ∧
        c'.message_index_map = s.message_index_map ∧
        c'.next_index = s.next_index ∧
        Out.sendFailed e ∈ (dispatch st env msg).out) := by
  have hd := dispatch_default_send st env msg hroute
  have hploc := print_date_separator_fields s env.today
  have hrt : (print_date_separator s env.today).1.reply_to_msg_id = some r := by
    rw [hploc.1, hr]
  constructor
  · intro sm hsm
    rw [hd]
    simp only [sendCmd, hchat, hsm, hrt]
    rw [if_pos (show (some r).isSome = true from rfl)]
    refine ⟨_, rfl, rfl, rfl, ?_, ?_, trivial⟩
    · simp only [assign_index]
      rw [hploc.2.2.1, hploc.2.2.2.1]
    · simp only [assign_index]
      rw [hploc.2.2.2.1]
  · intro e he
    rw [hd]
    simp only [sendCmd, hchat, he]
    exact ⟨(print_date_separator s env.today).1, rfl, hrt, hploc.2.1,
      hploc.2.2.1, hploc.2.2.2.1, by simp⟩

/-- Witness for C6: both send outcomes at a concrete pending-reply state. -/
theorem C6_send_clears_reply_only_on_success_witness :
    (∃ c', (dispatch exStReply exEnv "hello").state.current_chat = some c' ∧
      c'.reply_to_msg_id = none ∧ c'.reply_snippet = none ∧
      c'.message_index_map = exSessionReply.message_index_map
          ++ [(exSessionReply.next_index, { id := 200, day := 2, out := true, text := "ok" })] ∧
      c'.next_index = exSessionReply.next_index + 1 ∧
      (dispatch exStReply exEnv "hello").calls
        = [.sendMessage exSessionReply.entity.id (stripStr "hello") (some 102)]) ∧
    (∃ c', (dispatch exStReply { exEnv with sendResult := .error "boom" }
          "hello").state.current_chat = some c' ∧
      c'.reply_to_msg_id = some 102 ∧
      c'.reply_snippet = exSessionReply.reply_snippet ∧
      c'.message_index_map = exSessionReply.message_index_map ∧
      c'.next_index = exSessionReply.next_index ∧
      Out.sendFailed "boom"
        ∈ (dispatch exStReply { exEnv with sendResult := .error "boom" } "hello").out) :=
  ⟨(C6_send_clears_reply_only_on_success exStReply exEnv "hello" exSessionReply 102
      (by decide) (by decide) (by decide)).1
      { id := 200, day := 2, out := true, text := "ok" } rfl,
   (C6_send_clears_reply_only_on_success exStReply
      { exEnv with sendResult := .error "boom" } "hello" exSessionReply 102
      (by decide) (by decide) (by decide)).2 "boom" rfl⟩

/-! ## Delete-flow helper lemmas -/

theorem deleteParseArg_inr_shape (c : ChatSession) (a : String) (o : Out)
    (h : deleteParseArg c a = .inr o) :
    o = Out.warnNotNumber a ∨ o = Out.warnIdxNotFound (parseNat a) := by
  unfold deleteParseArg at h
  split at h
  · split at h
    · simp at h
    · simp at h
      exact Or.inr h.symm
  · simp at h
    exact Or.inl h.symm

theorem deleteWarns_count_prompt (c : ChatSession) (args : List String) :
    (deleteWarns c args).count Out.confirmPrompt = 0 := by
  rw [List.count_eq_zero]
  intro hmem
  rw [deleteWarns, List.mem_filterMap] at hmem
  obtain ⟨a, _, ha⟩ := hmem
  rcases hpa : deleteParseArg c a with p | o
  · rw [hpa] at ha
    simp at ha
  · rw [hpa] at ha
    simp at ha
    rcases deleteParseArg_inr_shape c a o hpa with h | h <;> rw [h] at ha <;> exact absurd ha (by simp)

theorem warnNotNumber_mem (c : ChatSession) (args : List String) (a : String)
    (ha : a ∈ args) (hd : isDigitStr a = false) :
    Out.warnNotNumber a ∈ deleteWarns c args := by
  rw [deleteWarns, List.mem_filterMap]
  refine ⟨a, ha, ?_⟩
  unfold deleteParseArg
  rw [if_neg (by simp [hd])]

theorem warnIdxNotFound_mem (c : ChatSession) (args : List String) (a : String)
    (ha : a ∈ args) (hd : isDigitStr a = true)
    (hl : lookupIdx c.message_index_map (parseNat a) = none) :
    Out.warnIdxNotFound (parseNat a) ∈ deleteWarns c args := by
  rw [deleteWarns, List.mem_filterMap]
  refine ⟨a, ha, ?_⟩
  unfold deleteParseArg
  rw [if_pos hd, hl]

/-- The delete command, spelled out by cases (routing already done): abort
with warnings when no argument is valid, else warnings, optional ownership
warning, one prompt, and at most one batched delete call. -/
theorem deleteCmd_cases (st : AppState) (env : Env) (s : ChatSession)
    (args : List String) (hchat : st.current_chat = some s) (hne : args ≠ []) :
    deleteCmd st env ("/delete" :: args) =
      if deleteValid s args = [] then
        ⟨st, deleteWarns s args ++ [.noValidSelected], [], false⟩
      else
        (if toLowerStr env.promptAnswer = "y" then
          match env.deleteOk with
          | .ok _ =>
            ⟨st, deleteWarns s args
              ++ (if (deleteValid s args).map Prod.snd |>.any (fun m => !m.out)
                  then [Out.warnOthersMessages] else [])
              ++ [.deleteWarning ((deleteValid s args).map Prod.fst), .confirmPrompt]
              ++ [.deleted (((deleteValid s args).map Prod.snd).map (fun m => m.id)).length],
             [.deleteMessages s.entity.id
                (((deleteValid s args).map Prod.snd).map (fun m => m.id)) true], false⟩
          | .error e =>
            ⟨st, deleteWarns s args
              ++ (if (deleteValid s args).map Prod.snd |>.any (fun m => !m.out)
                  then [Out.warnOthersMessages] else [])
              ++ [.deleteWarning ((deleteValid s args).map Prod.fst), .confirmPrompt]
              ++ [.deleteFailed e],
             [.deleteMessages s.entity.id
                (((deleteValid s args).map Prod.snd).map (fun m => m.id)) true], false⟩
        else
          ⟨st, deleteWarns s args
            ++ (if (deleteValid s args).map Prod.snd |>.any (fun m => !m.out)
                then [Out.warnOthersMessages] else [])
            ++ [.deleteWarning ((deleteValid s args).map Prod.fst), .confirmPrompt]
            ++ [.deletionCancelled],
           [], false⟩) := by
  have hlen : ¬ ("/delete" :: args).length < 2 := by
    simp only [List.length_cons]
    cases args with
    | nil => exact absurd rfl hne
    | cons a t => simp
  simp only [deleteCmd, hchat, List.tail_cons, if_neg hlen, List.isEmpty_iff]

theorem deleteCmd_warns_sub (st : AppState) (env : Env) (s : ChatSession)
    (args : List String) (hchat : st.current_chat = some s) (hne : args ≠ [])
    (o : Out) (ho : o ∈ deleteWarns s args) :
    o ∈ (deleteCmd st env ("/delete" :: args)).out := by
  rw [deleteCmd_cases st env s args hchat hne]
  split
  · simp [List.mem_append, ho]
  · split
    · split <;> simp [List.mem_append, ho]
    · simp [List.mem_append, ho]

/-- Claim C7: `/delete` validates every argument independently (warned and
skipped individually), aborts with no prompt and no backend call when no
valid index remains, and otherwise shows exactly one confirmation prompt
listing exactly the valid indices; confirming issues exactly one batched
`delete_messages` call with all their message ids, declining issues none,
and the command never mutates the app state. -/
theorem C7_delete_validation_and_batch (st : AppState) (env : Env)
    (s : ChatSession) (args : List String) (hchat : st.current_chat = some s)
    (htok : ∀ a ∈ args, isTok a = true) (hne : args ≠ []) :
    dispatch st env (joinSp ("/delete" :: args))
        = deleteCmd st env ("/delete" :: args) ∧
      (deleteValid s args = [] →
        deleteCmd st env ("/delete" :: args)
          = ⟨st, deleteWarns s args ++ [.noValidSelected], [], false⟩) ∧
      (deleteValid s args ≠ [] →
        (deleteCmd st env ("/delete" :: args)).out.count Out.confirmPrompt = 1 ∧
        Out.deleteWarning ((deleteValid s args).map Prod.fst)
            ∈ (deleteCmd st env ("/delete" :: args)).out ∧
        (deleteCmd st env ("/delete" :: args)).state = st ∧
        (toLowerStr env.promptAnswer = "y" →
          (deleteCmd st env ("/delete" :: args)).calls
            = [.deleteMessages s.entity.id
                (((deleteValid s args).map Prod.snd).map (fun m => m.id)) true]) ∧
        (¬ toLowerStr env.promptAnswer = "y" →
          (deleteCmd st env ("/delete" :: args)).calls = [])) ∧
      (∀ a ∈ args,
        (isDigitStr a = false →
          Out.warnNotNumber a ∈ (deleteCmd st env ("/delete" :: args)).out) ∧
        (isDigitStr a = true →
          lookupIdx s.message_index_map (parseNat a) = none →
          Out.warnIdxNotFound (parseNat a)
            ∈ (deleteCmd st env ("/delete" :: args)).out)) := by
  have hcases := deleteCmd_cases st env s args hchat hne
  refine ⟨dispatch_joinSp_delete st env args htok, ?_, ?_, ?_⟩
  · intro hv
    rw [hcases, if_pos hv]
  · intro hv
    rw [hcases, if_neg hv]
    by_cases hy : toLowerStr env.promptAnswer = "y"
    · rw [if_pos hy]
      rcases hok : env.deleteOk with u | e <;>
        refine ⟨?_, by simp, rfl, fun _ => rfl, fun hny => absurd hy hny⟩ <;>
        · by_cases ho : (((deleteValid s args).map Prod.snd).any fun m => !m.out) = true
          · rw [if_pos ho]
            simp [List.count_append, List.count_cons, deleteWarns_count_prompt]
          · rw [if_neg ho]
            simp [List.count_append, List.count_cons, deleteWarns_count_prompt]
    · rw [if_neg hy]
      refine ⟨?_, by simp, rfl, fun hyy => absurd hyy hy, fun _ => rfl⟩
      by_cases ho : (((deleteValid s args).map Prod.snd).any fun m => !m.out) = true
      · rw [if_pos ho]
        simp [List.count_append, List.count_cons, deleteWarns_count_prompt]
      · rw [if_neg ho]
        simp [List.count_append, List.count_cons, deleteWarns_count_prompt]
  · intro a ha
    constructor
    · intro hd
      exact deleteCmd_warns_sub st env s args hchat hne _
        (warnNotNumber_mem s args a ha hd)
    · intro hd hl
      exact deleteCmd_warns_sub st env s args hchat hne _
        (warnIdxNotFound_mem s args a ha hd hl)

/-- Witness for C7 at the claim's example `/delete 2 99 x 3` against a
table holding exactly indices 2 and 3: 99 and "x" are warned and skipped,
the prompt covers exactly [2, 3], and confirmation issues one batched call
with the two message ids. -/
theorem C7_delete_validation_and_batch_witness :
    exStOpen.current_chat = some exSession ∧
      deleteValid exSession ["2", "99", "x", "3"] ≠ [] ∧
      deleteWarns exSession ["2", "99", "x", "3"]
        = [.warnIdxNotFound 99, .warnNotNumber "x"] ∧
      ((deleteCmd exStOpen exEnv ("/delete" :: ["2", "99", "x", "3"])).out.count
          Out.confirmPrompt = 1 ∧
        Out.deleteWarning
            ((deleteValid exSession ["2", "99", "x", "3"]).map Prod.fst)
          ∈ (deleteCmd exStOpen exEnv ("/delete" :: ["2", "99", "x", "3"])).out ∧
        (deleteCmd exStOpen exEnv ("/delete" :: ["2", "99", "x", "3"])).state
          = exStOpen ∧
        (toLowerStr exEnv.promptAnswer = "y" →
          (deleteCmd exStOpen exEnv ("/delete" :: ["2", "99", "x", "3"])).calls
            = [.deleteMessages exSession.entity.id
                (((deleteValid exSession ["2", "99", "x", "3"]).map Prod.snd).map
                  (fun m => m.id)) true]) ∧
        (¬ toLowerStr exEnv.promptAnswer = "y" →
          (deleteCmd exStOpen exEnv ("/delete" :: ["2", "99", "x", "3"])).calls = [])) ∧
      (deleteValid exSession ["2", "99", "x", "3"]).map Prod.fst = [2, 3] ∧
      ((deleteValid exSession ["2", "99", "x", "3"]).map Prod.snd).map (fun m => m.id)
        = [102, 103] :=
  ⟨by decide, by decide, by decide,
   (C7_delete_validation_and_batch exStOpen exEnv exSession ["2", "99", "x", "3"]
      (by decide) (by decide) (by decide)).2.2.1 (by decide),
   by decide, by decide⟩

/-! ## Entity/name preservation lemmas -/

theorem renderHist_entity_name (l : List Message) :
    ∀ (c : ChatSession) (last : Option Nat),
      (renderHist l c last).1.entity = c.entity ∧
        (renderHist l c last).1.name = c.name := by
  induction l with
  | nil => intro c last; exact ⟨rfl, rfl⟩
  | cons m rest ih => intro c last; exact ih (assign_index c m).1 (some m.day)

theorem fetch_entity_name (c : ChatSession) (n : Int)
    (res : Except String (List Message)) :
    (fetch_and_render_history c n res).1.entity = c.entity ∧
      (fetch_and_render_history c n res).1.name = c.name := by
  by_cases hl : n ≤ 0
  · simp [fetch_and_render_history, if_pos hl]
  · cases res with
    | error e =>
      simp [fetch_and_render_history, if_neg hl]
    | ok msgs =>
      have h := renderHist_entity_name msgs.reverse
        { c with message_index_map := [], next_index := 1 } none
      simp only [fetch_and_render_history, if_neg hl]
      split
      · exact h
      · exact h

/-- Claim C1: starting from a freshly opened session, every finite
sequence of indexing operations — history loads with any backend outcome,
live arrivals, and local sends, in any mix — leaves the keys of the index
table exactly 1, 2, …, next_index − 1, in order of appearance, with no
duplicates or gaps, and each indexed message stored under one key. -/
theorem C1_index_table_contiguous (e : Entity) (today : Nat)
    (ops : List IndexOp) :
    sessionKeysInv (ops.foldl applyIndexOp (openedSession e today)) :=
  foldl_applyIndexOp_inv ops (openedSession e today) ⟨rfl, le_refl 1⟩

/-- Claim C10 (amended): `/set key value` (and `/settings key value`) with
a key other than `defaultHistory` whose lowercase form is not `help`
accepts the key without any validation, coerces the value — digit strings
to int, true/false case-insensitively to bool, anything else kept a string
— stores it in the in-memory settings and immediately persists them. -/
theorem C10_generic_setting_stored (st : AppState) (env : Env)
    (key val : String) (hktok : isTok key = true) (hvtok : isTok val = true)
    (hkd : key ≠ "defaultHistory") (hkh : toLowerStr key ≠ "help") :
    dispatch st env (joinSp ["/set", key, val])
      = ⟨{ st with
            user_settings := setSetting st.user_settings key (coerceVal val),
            savedSettings := some (setSetting st.user_settings key (coerceVal val)) },
         [.settingsSet key (coerceVal val)], [], false⟩ := by
  have hroute := dispatch_joinSp_set st env key [val] hktok
    (by intro u hu; rw [List.mem_singleton] at hu; rw [hu]; exact hvtok)
  rw [hroute]
  simp only [settingsCmd, List.tail_cons]
  rw [if_neg hkh, if_neg hkd]

/-- Witness for C10 (amended) at `/set foo TRUE`: the undocumented key is
stored with the coerced boolean and persisted. -/
theorem C10_generic_setting_stored_witness :
    isTok "foo" = true ∧ isTok "TRUE" = true ∧ ("foo" : String) ≠ "defaultHistory" ∧
      toLowerStr "foo" ≠ "help" ∧
      dispatch exStClosed exEnv (joinSp ["/set", "foo", "TRUE"])
        = ⟨{ exStClosed with
              user_settings := setSetting exStClosed.user_settings "foo" (coerceVal "TRUE"),
              savedSettings := some (setSetting exStClosed.user_settings "foo"
                (coerceVal "TRUE")) },
           [.settingsSet "foo" (coerceVal "TRUE")], [], false⟩ :=
  ⟨by decide, by decide, by decide, by decide,
   C10_generic_setting_stored exStClosed exEnv "foo" "TRUE"
     (by decide) (by decide) (by decide) (by decide)⟩

/-- Counterexample to C10 as stated: the key "help" with a value argument
is not stored at all — `/set help 5` triggers the settings-help branch, so
neither the in-memory dict nor the settings file changes even though
"help" is a key other than `defaultHistory` carrying a value argument. -/
theorem C10_counterexample_help_key :
    ("help" : String) ≠ "defaultHistory" ∧
      dispatch exStClosed exEnv "/set help 5"
        = ⟨exStClosed, [Out.settingsHelp], [], false⟩ ∧
      lookupSetting
          (dispatch exStClosed exEnv "/set help 5").state.user_settings "help"
        = none := by
  exact ⟨by decide, by decide, by decide⟩

/-- Claim C2 (amended): only `/r <name>` reaches the recipient handler —
`/recipient <name>` is intercepted by the reply command's `/re` prefix
test.  The name is resolved by `resolve_entity`: a backend lookup for
`@`/`+`-prefixed input, then a single fused pass over the dialogs taking
the first whose display name equals the name case-insensitively or whose
username equals the name with `@`s removed, then a substring pass over the
first 100 dialogs.  On success the current session is replaced by a fresh
`ChatSession` for the entity (auto-loading history when `defaultHistory`
is positive); on failure a not-found error and usage hint are reported and
the state is unchanged. -/
theorem C2_recipient_resolution (st : AppState) (env : Env)
    (args : List String) (htok : ∀ a ∈ args, isTok a = true)
    (hne : args ≠ []) (hoff : args ≠ ["off"]) :
    dispatch st env (joinSp ("/r" :: args))
        = recipientCmd st env ("/r" :: args) ∧
      (∀ e, resolve_entity env (joinSp args) = some e →
        ∃ c', (recipientCmd st env ("/r" :: args)).state.current_chat = some c' ∧
          c'.entity = e ∧ c'.name = get_display_name e ∧
          (settingInt st.user_settings ≤ 0 →
            c' = { ChatSession.create e with last_message_date := some env.today })) ∧
      (resolve_entity env (joinSp args) = none →
        (recipientCmd st env ("/r" :: args)).state = st ∧
        Out.couldNotFind (joinSp args) ∈ (recipientCmd st env ("/r" :: args)).out ∧
        Out.usageHint ∈ (recipientCmd st env ("/r" :: args)).out) := by
  have hlen : (("/r" :: args) : List String).length > 1 := by
    cases args with
    | nil => exact absurd rfl hne
    | cons a t => simp
  have hjne : joinSp args ≠ "" := by
    intro hj
    have hd := joinSp_data_ne_nil htok hne
    rw [hj] at hd
    exact hd rfl
  refine ⟨dispatch_joinSp_r st env args htok hne hoff, ?_, ?_⟩
  · intro e he
    simp only [recipientCmd, List.tail_cons, if_pos hlen, if_neg hjne, he]
    simp only [openChat]
    by_cases hdh : settingInt st.user_settings > 0
    · rw [if_pos hdh]
      refine ⟨_, rfl, ?_, ?_, fun hle => absurd hdh (by omega)⟩
      · exact (fetch_entity_name _ _ _).1
      · exact (fetch_entity_name _ _ _).2
    · rw [if_neg hdh]
      exact ⟨_, rfl, rfl, rfl, fun _ => rfl⟩
  · intro he
    simp only [recipientCmd, List.tail_cons, if_pos hlen, if_neg hjne, he]
    simp

/-- Witness for C2 (amended) at `/r bob`: the dialog pass resolves the
peer whose username is "bob" and a fresh session replaces the closed
state. -/
theorem C2_recipient_resolution_witness :
    (∀ a ∈ (["bob"] : List String), isTok a = true) ∧
      (["bob"] : List String) ≠ [] ∧ (["bob"] : List String) ≠ ["off"] ∧
      resolve_entity exEnvR (joinSp ["bob"]) = some exXavier ∧
      ∃ c', (recipientCmd exStClosed exEnvR ("/r" :: ["bob"])).state.current_chat
          = some c' ∧
        c'.entity = exXavier ∧ c'.name = get_display_name exXavier ∧
        (settingInt exStClosed.user_settings ≤ 0 →
          c' = { ChatSession.create exXavier with
                 last_message_date := some exEnvR.today }) :=
  ⟨by decide, by decide, by decide, by decide,
   (C2_recipient_resolution exStClosed exEnvR ["bob"]
      (by decide) (by decide) (by decide)).2.1 exXavier (by decide)⟩

/-- Counterexample to C2 as stated: (i) against dialogs
[Xavier (username "bob"), bob (display name "bob")], the claimed category
priority — @username, +phone, exact display name, substring — resolves the
exact-display-name peer (id 8), but `/r bob` opens a session with Xavier
(id 7): the code fuses the display-name and username tests into one pass
over the dialogs, so an earlier username match beats a later exact
display-name match; (ii) `/recipient bob` performs no peer resolution at
all — the `/re` prefix of the reply command captures it and, with no chat
open, it merely reports "no active chat" and changes nothing. -/
theorem C2_counterexample_priority_and_alias :
    (resolve_by_spec exEnvR "bob" = some exBobName ∧ exBobName.id = 8 ∧
      (dispatch exStClosed exEnvR "/r bob").state.current_chat.map
          (fun c => c.entity.id) = some 7) ∧
      dispatch exStClosed exEnvR "/recipient bob"
        = ⟨exStClosed, [Out.noActiveChat], [], false⟩ := by
  exact ⟨⟨by decide, by decide, by decide⟩, by decide⟩

end Simplegram
